import Mathlib

/-!
Shallow embedding of the ZKTeco attendance client
(`src/src-tauri/src/zkteco_client.rs`) and proofs about it.

Bytes are modelled as `Nat` values below 256, byte buffers as `List Nat`,
machine integers as `Nat`/`Int` with explicit reductions modulo a power of
two where the source wraps.  Rust `String`s that only ever hold bytes are
modelled as `List Nat` of their bytes; formatted output strings (`date`,
`time`, `event`) are modelled as Lean `String`s.  Fallible operations
return `Except String` the way the source returns `Result<_, String>`, and
source `while` loops are modelled by fuel recursion where indicated.
-/

namespace ZK

/-- Protocol constant `USHRT_MAX` from the source. -/
def USHRT_MAX : Nat := 65535

/-- Command code `CMD_EXIT`. -/
def CMD_EXIT : Nat := 1001

/-- Command code `CMD_ENABLEDEVICE`. -/
def CMD_ENABLEDEVICE : Nat := 1002

/-- Command code `CMD_PREPARE_DATA`. -/
def CMD_PREPARE_DATA : Nat := 1500

/-- Command code `CMD_DATA`. -/
def CMD_DATA : Nat := 1501

/-- Command code `CMD_FREE_DATA`. -/
def CMD_FREE_DATA : Nat := 1502

/-- Command code `CMD_ACK_OK`. -/
def CMD_ACK_OK : Nat := 2000

/-- Command code `CMD_DATA_RDY`. -/
def CMD_DATA_RDY : Nat := 1504

/-- Outer frame magic word 1 (`0x5050`). -/
def MACHINE_PREPARE_DATA_1 : Nat := 20560

/-- Outer frame magic word 2 (`0x7D82`). -/
def MACHINE_PREPARE_DATA_2 : Nat := 32130

/-- `u16::from_le_bytes([b0, b1])`. -/
def u16le (b0 b1 : Nat) : Nat := b0 + 256 * b1

/-- `u32::from_le_bytes([b0, b1, b2, b3])`. -/
def u32le (b0 b1 b2 b3 : Nat) : Nat :=
  b0 + 256 * b1 + 65536 * b2 + 16777216 * b3

/-- `u16::to_le_bytes`. -/
def le16 (n : Nat) : List Nat := [n % 256, n / 256 % 256]

/-- `u32::to_le_bytes`. -/
def le32 (n : Nat) : List Nat :=
  [n % 256, n / 256 % 256, n / 65536 % 256, n / 16777216 % 256]

/-- The word-summing loop of `calc_checksum`: while at least two bytes
remain, add the little-endian `u16` word and subtract `USHRT_MAX` once if
the running value exceeds it.  Returns the accumulator together with the
trailing odd byte, if any. -/
def csPairs : List Nat → Int → Int × Option Nat
  | b0 :: b1 :: rest, c =>
      let c := c + (u16le b0 b1 : Int)
      let c := if c > 65535 then c - 65535 else c
      csPairs rest c
  | [b], c => (c, some b)
  | [], c => (c, none)

/-- The source loop `while checksum > USHRT_MAX { checksum -= USHRT_MAX }`.
The loop removes at least one unit of `c.toNat` per iteration, so a fuel of
`c.toNat` (supplied by `calc_checksum`) always suffices for the loop to
reach its exit condition. -/
def csReduce : Nat → Int → Int
  | 0, c => c
  | fuel + 1, c => if c > 65535 then csReduce fuel (c - 65535) else c

/-- The source loop `while checksum < 0 { checksum += USHRT_MAX }`, with the
same fuel convention (fuel `(-c).toNat` always suffices). -/
def csAddNeg : Nat → Int → Int
  | 0, c => c
  | fuel + 1, c => if c < 0 then csAddNeg fuel (c + 65535) else c

/-- `ZKClient::calc_checksum`.  The accumulator is an `i32`; all
intermediate values stay far inside the `i32` range, so plain `Int`
arithmetic is exact, and the `i32` bitwise NOT is `-c - 1`.  The final
`as u16` cast is a reduction modulo 65536. -/
def calc_checksum (data : List Nat) : Nat :=
  let p := csPairs data 0
  let c := match p.2 with
    | some b => p.1 + (b : Int)
    | none => p.1
  let c := csReduce c.toNat c
  let c := -c - 1
  let c := csAddNeg (-c).toNat c
  c.toNat % 65536

/-- The mutable session state of `ZKClient` (the `TcpStream` is modelled
separately as an explicit byte stream). -/
structure Session where
  session_id : Nat
  reply_id : Nat
deriving DecidableEq

/-- `ZKClient::create_header`: builds the inner packet for `command` with
payload `command_string`.  The checksum is computed over the packet with
the checksum field zeroed and the current `reply_id`; the emitted packet
carries the incremented reply id.  `wrapping_add 1` on `u16` is `% 65536`,
and the subtraction of `USHRT_MAX` cannot underflow because it is guarded
by `next_reply_id ≥ USHRT_MAX`. -/
def create_header (st : Session) (command : Nat) (command_string : List Nat) : List Nat :=
  let buf := le16 command ++ le16 0 ++ le16 st.session_id ++ le16 st.reply_id ++ command_string
  let checksum := calc_checksum buf
  let next_reply_id := (st.reply_id + 1) % 65536
  let next_reply_id :=
    if next_reply_id ≥ USHRT_MAX then next_reply_id - USHRT_MAX else next_reply_id
  le16 command ++ le16 checksum ++ le16 st.session_id ++ le16 next_reply_id ++ command_string

/-- `ZKClient::create_tcp_top`: prepends the 8-byte outer frame. -/
def create_tcp_top (packet : List Nat) : List Nat :=
  le16 MACHINE_PREPARE_DATA_1 ++ le16 MACHINE_PREPARE_DATA_2 ++
    le32 packet.length ++ packet

/-- `read_exact` into a buffer of `n` bytes, modelled on an explicit input
stream: consumes exactly `n` bytes or fails. -/
def readExact (n : Nat) (s : List Nat) : Option (List Nat × List Nat) :=
  if n ≤ s.length then some (s.take n, s.drop n) else none

deriving instance DecidableEq for Except

/-- Result of one `send_command` round trip: the session afterwards, the
bytes that were handed to `write_all`, the unread remainder of the input
stream, and the `Result<(u16, Vec<u8>), String>` value. -/
structure SendResult where
  session : Session
  written : List Nat
  rest : List Nat
  result : Except String (Nat × List Nat)
deriving DecidableEq

/-- `ZKClient::send_command`.  `writeOk` models whether
`write_all`/`flush` succeed.  Mirrors the source exactly: build and write
the framed packet, read the 8-byte outer header, validate both magic
words, read the length-delimited body, require at least 8 bytes, and only
then update `session_id` (when the response session is non-zero) and
`reply_id`. -/
def send_command (writeOk : Bool) (st : Session) (command : Nat)
    (command_string : List Nat) (stream : List Nat) : SendResult :=
  let buf := create_header st command command_string
  let top := create_tcp_top buf
  if writeOk = false then
    { session := st, written := top, rest := stream, result := .error "Failed to send" }
  else
    match readExact 8 stream with
    | none =>
        { session := st, written := top, rest := stream,
          result := .error "Failed to read TCP header" }
    | some (hdr, rest) =>
      let h1 := u16le (hdr.getD 0 0) (hdr.getD 1 0)
      let h2 := u16le (hdr.getD 2 0) (hdr.getD 3 0)
      if h1 ≠ MACHINE_PREPARE_DATA_1 ∨ h2 ≠ MACHINE_PREPARE_DATA_2 then
        { session := st, written := top, rest := rest,
          result := .error "Invalid TCP header" }
      else
        let tcp_length := u32le (hdr.getD 4 0) (hdr.getD 5 0) (hdr.getD 6 0) (hdr.getD 7 0)
        match readExact tcp_length rest with
        | none =>
            { session := st, written := top, rest := rest,
              result := .error "Failed to read packet data" }
        | some (data, rest2) =>
          if data.length < 8 then
            { session := st, written := top, rest := rest2,
              result := .error "Response too short" }
          else
            let response_cmd := u16le (data.getD 0 0) (data.getD 1 0)
            let response_session := u16le (data.getD 4 0) (data.getD 5 0)
            let response_reply_id := u16le (data.getD 6 0) (data.getD 7 0)
            { session :=
                { session_id := if response_session ≠ 0 then response_session else st.session_id,
                  reply_id := response_reply_id },
              written := top, rest := rest2,
              result := .ok (response_cmd, data.drop 8) }

/-- `ZKClient::recv_packet`: like the receive half of `send_command`, with
an extra `tcp_length < 8` rejection before reading the body. -/
def recv_packet (st : Session) (stream : List Nat) :
    Session × List Nat × Except String (Nat × List Nat) :=
  match readExact 8 stream with
  | none => (st, stream, .error "Failed to read TCP header")
  | some (hdr, rest) =>
    let h1 := u16le (hdr.getD 0 0) (hdr.getD 1 0)
    let h2 := u16le (hdr.getD 2 0) (hdr.getD 3 0)
    if h1 ≠ MACHINE_PREPARE_DATA_1 ∨ h2 ≠ MACHINE_PREPARE_DATA_2 then
      (st, rest, .error "Invalid TCP header")
    else
      let tcp_length := u32le (hdr.getD 4 0) (hdr.getD 5 0) (hdr.getD 6 0) (hdr.getD 7 0)
      if tcp_length < 8 then (st, rest, .error "Invalid tcp_length")
      else
        match readExact tcp_length rest with
        | none => (st, rest, .error "Failed to read packet data")
        | some (data, rest2) =>
          let response_cmd := u16le (data.getD 0 0) (data.getD 1 0)
          let response_session := u16le (data.getD 4 0) (data.getD 5 0)
          let response_reply_id := u16le (data.getD 6 0) (data.getD 7 0)
          ({ session_id := if response_session ≠ 0 then response_session else st.session_id,
             reply_id := response_reply_id },
           rest2, .ok (response_cmd, data.drop 8))

/-- A request issued by the chunked bulk reader. -/
inductive ChunkCmd where
  | dataRdy (start len : Nat)
  | freeData
deriving DecidableEq

/-- The request sequence issued by `ZKClient::read_chunks` when every chunk
read succeeds: `remain = size % max_chunk` and
`packets = (size - remain) / max_chunk` full chunks are requested first
(the mutable `start` of the source loop is `i * max_chunk` at iteration
`i`), then the remainder chunk when `remain > 0`, then one
`CMD_FREE_DATA`. -/
def read_chunks_cmds (size max_chunk : Nat) : List ChunkCmd :=
  let remain := size % max_chunk
  let packets := (size - remain) / max_chunk
  ((List.range packets).map fun i => ChunkCmd.dataRdy (i * max_chunk) max_chunk)
    ++ (if remain > 0 then [ChunkCmd.dataRdy (packets * max_chunk) remain] else [])
    ++ [ChunkCmd.freeData]

/-- The body loop of `ZKClient::read_prepare_data_stream`: while fewer than
`size` bytes are accumulated, read an 8-byte outer header, take only its
length field (the source performs no magic validation here), skip frames
whose length is below 8, read the body, update `reply_id` from the inner
header, append the payload on `CMD_DATA`, and stop on anything else.
Returns `none` when the fuel runs out before the source loop exits. -/
def rpds_loop : Nat → Session → Nat → List Nat → List Nat →
    Option (Session × List Nat × Except String (List Nat))
  | 0, _, _, _, _ => none
  | fuel + 1, st, size, acc, stream =>
    if acc.length < size then
      match readExact 8 stream with
      | none => some (st, stream, .error "Read data TCP header")
      | some (hdr, rest) =>
        let tcp_len := u32le (hdr.getD 4 0) (hdr.getD 5 0) (hdr.getD 6 0) (hdr.getD 7 0)
        if tcp_len < 8 then
          rpds_loop fuel st size acc rest
        else
          match readExact tcp_len rest with
          | none => some (st, rest, .error "Read data packet")
          | some (packet, rest2) =>
            let cmd := u16le (packet.getD 0 0) (packet.getD 1 0)
            let st := { st with reply_id := u16le (packet.getD 6 0) (packet.getD 7 0) }
            if cmd = CMD_DATA then
              rpds_loop fuel st size (acc ++ packet.drop 8) rest2
            else if cmd = CMD_ACK_OK then
              some (st, rest2, .ok acc)
            else
              some (st, rest2, .ok acc)
    else
      some (st, stream, .ok acc)

/-- `ZKClient::read_prepare_data_stream`: run the body loop, then send
`CMD_FREE_DATA` (whose failure propagates via `?`; a non-ACK reply only
logs a warning) and return the accumulated data with its length. -/
def read_prepare_data_stream (fuel : Nat) (st : Session) (size : Nat)
    (stream : List Nat) : Option (Session × Except String (List Nat × Nat)) :=
  match rpds_loop fuel st size [] stream with
  | none => none
  | some (st1, _, .error e) => some (st1, .error e)
  | some (st1, rest, .ok all_data) =>
    let r := send_command true st1 CMD_FREE_DATA [] rest
    match r.result with
    | .error e => some (r.session, .error e)
    | .ok _ => some (r.session, .ok (all_data, all_data.length))

/-- `ZKClient::try_read_ack`: best-effort read of a trailing ACK frame —
read an 8-byte outer header (ignoring failure), and when its length field
is in `1..64`, read the body and adopt its reply id when at least 8 bytes
long.  No magic validation is performed.  When the body read fails the
source would consult a partially filled buffer, which is unspecified; the
model leaves the session unchanged there (no theorem exercises it). -/
def try_read_ack (st : Session) (stream : List Nat) : Session × List Nat :=
  match readExact 8 stream with
  | none => (st, stream)
  | some (hdr, rest) =>
    let tcp_len := u32le (hdr.getD 4 0) (hdr.getD 5 0) (hdr.getD 6 0) (hdr.getD 7 0)
    if 0 < tcp_len ∧ tcp_len ≤ 64 then
      match readExact tcp_len rest with
      | none => (st, rest)
      | some (packet, rest2) =>
        if packet.length ≥ 8 then
          ({ st with reply_id := u16le (packet.getD 6 0) (packet.getD 7 0) }, rest2)
        else (st, rest2)
    else (st, rest)

/-- The DATA-collection loop of `read_chunk_pyzk`'s ACK_OK → PREPARE_DATA
sub-case: while fewer than `inner_size` bytes are accumulated, read an
8-byte header taking only its length field (no magic validation), break
when the length is below 8, read the body, update `reply_id`, append the
payload of `CMD_DATA` packets longer than 8 bytes, and break on anything
else (including `CMD_ACK_OK`).  `none` means the fuel ran out before the
source loop exited. -/
def rcAckPrepLoop : Nat → Session → Nat → List Nat → List Nat →
    Option (Session × List Nat × Except String (List Nat))
  | 0, _, _, _, _ => none
  | fuel + 1, st, inner_size, acc, stream =>
    if acc.length < inner_size then
      match readExact 8 stream with
      | none => some (st, stream, .error "Read DATA TCP header")
      | some (hdr, rest) =>
        let data_tcp_len := u32le (hdr.getD 4 0) (hdr.getD 5 0) (hdr.getD 6 0) (hdr.getD 7 0)
        if data_tcp_len < 8 then
          some (st, rest, .ok acc)
        else
          match readExact data_tcp_len rest with
          | none => some (st, rest, .error "Read DATA packet")
          | some (packet, rest2) =>
            let data_cmd := u16le (packet.getD 0 0) (packet.getD 1 0)
            let st := { st with reply_id := u16le (packet.getD 6 0) (packet.getD 7 0) }
            if data_cmd = CMD_DATA ∧ packet.length > 8 then
              rcAckPrepLoop fuel st inner_size (acc ++ packet.drop 8) rest2
            else if data_cmd = CMD_ACK_OK then
              some (st, rest2, .ok acc)
            else
              some (st, rest2, .ok acc)
    else some (st, stream, .ok acc)

/-- The DATA-collection loop of `read_chunk_pyzk`'s direct PREPARE_DATA
branch: zero-length frames are skipped, bodies shorter than 8 bytes are
skipped, `CMD_DATA` packets append their payload (empty when exactly 8
bytes), and `CMD_ACK_OK` or anything else breaks.  No magic validation is
performed.  `none` means the fuel ran out before the source loop
exited. -/
def rcPrepLoop : Nat → Session → Nat → List Nat → List Nat →
    Option (Session × List Nat × Except String (List Nat))
  | 0, _, _, _, _ => none
  | fuel + 1, st, inner_size, acc, stream =>
    if acc.length < inner_size then
      match readExact 8 stream with
      | none => some (st, stream, .error "Read data TCP header")
      | some (hdr, rest) =>
        let next_tcp_len := u32le (hdr.getD 4 0) (hdr.getD 5 0) (hdr.getD 6 0) (hdr.getD 7 0)
        if next_tcp_len = 0 then
          rcPrepLoop fuel st inner_size acc rest
        else
          match readExact next_tcp_len rest with
          | none => some (st, rest, .error "Read data packet")
          | some (packet, rest2) =>
            if packet.length < 8 then
              rcPrepLoop fuel st inner_size acc rest2
            else
              let next_cmd := u16le (packet.getD 0 0) (packet.getD 1 0)
              let st := { st with reply_id := u16le (packet.getD 6 0) (packet.getD 7 0) }
              if next_cmd = CMD_DATA then
                rcPrepLoop fuel st inner_size (acc ++ packet.drop 8) rest2
              else if next_cmd = CMD_ACK_OK then
                some (st, rest2, .ok acc)
              else
                some (st, rest2, .ok acc)
    else some (st, stream, .ok acc)

/-- `ZKClient::read_chunk_pyzk`: build and send `CMD_DATA_RDY` with
payload `pack(start, size)` (`writeOk` models `write_all`/`flush`), read
the 8-byte outer header and take only its length field — the source
performs no magic validation anywhere in this function — reject lengths
below 8, read the body, update `reply_id`, and dispatch on the response
command: `CMD_ACK_OK` tries one follow-up frame (a `CMD_DATA` payload
completed by a direct remainder read, or a PREPARE_DATA-led collection
loop, otherwise `Ok` with no data); a direct `CMD_DATA` reads any missing
remainder directly from the stream and then probes for a trailing ACK;
`CMD_PREPARE_DATA` requires 4 size bytes and runs the collection loop;
anything else is an error.  Results are truncated to
`size.min(length)` bytes as in the source; `none` means a collection
loop ran out of fuel. -/
def read_chunk_pyzk (fuel : Nat) (writeOk : Bool) (st : Session) (start size : Nat)
    (stream : List Nat) : Option (Session × List Nat × Except String (List Nat)) :=
  let cmd_string := le32 start ++ le32 size
  let buf := create_header st CMD_DATA_RDY cmd_string
  let top := create_tcp_top buf
  if writeOk = false then some (st, stream, .error "Send CMD_DATA_RDY failed")
  else
    match readExact 8 stream with
    | none => some (st, stream, .error "Read chunk TCP header")
    | some (hdr, rest) =>
      let tcp_length := u32le (hdr.getD 4 0) (hdr.getD 5 0) (hdr.getD 6 0) (hdr.getD 7 0)
      if tcp_length < 8 then some (st, rest, .error "TCP length too small")
      else
        match readExact tcp_length rest with
        | none => some (st, rest, .error "Read chunk packet")
        | some (packet_data, rest2) =>
          let response_cmd := u16le (packet_data.getD 0 0) (packet_data.getD 1 0)
          let st := { st with reply_id := u16le (packet_data.getD 6 0) (packet_data.getD 7 0) }
          let zk_data := packet_data.drop 8
          if response_cmd = CMD_ACK_OK then
            match readExact 8 rest2 with
            | none => some (st, rest2, .ok [])
            | some (nhdr, rest3) =>
              let next_tcp_len :=
                u32le (nhdr.getD 4 0) (nhdr.getD 5 0) (nhdr.getD 6 0) (nhdr.getD 7 0)
              if next_tcp_len ≥ 8 then
                match readExact next_tcp_len rest3 with
                | none => some (st, rest3, .error "Read next packet")
                | some (next_packet, rest4) =>
                  let next_cmd := u16le (next_packet.getD 0 0) (next_packet.getD 1 0)
                  let st := { st with
                    reply_id := u16le (next_packet.getD 6 0) (next_packet.getD 7 0) }
                  if next_cmd = CMD_DATA ∧ next_packet.length > 8 then
                    let result := next_packet.drop 8
                    if result.length < size then
                      match readExact (size - result.length) rest4 with
                      | none => some (st, rest4, .error "Read remaining after ACK")
                      | some (more, rest5) =>
                        let result := result ++ more
                        some (st, rest5, .ok (result.take (min size result.length)))
                    else
                      some (st, rest4, .ok (result.take (min size result.length)))
                  else if next_cmd = CMD_PREPARE_DATA then
                    let inner_size :=
                      if next_packet.length ≥ 12 then
                        u32le (next_packet.getD 8 0) (next_packet.getD 9 0)
                          (next_packet.getD 10 0) (next_packet.getD 11 0)
                      else size
                    match rcAckPrepLoop fuel st inner_size [] rest4 with
                    | none => none
                    | some (st2, rest5, .error e) => some (st2, rest5, .error e)
                    | some (st2, rest5, .ok all_data) =>
                      some (st2, rest5, .ok (all_data.take (min size all_data.length)))
                  else
                    some (st, rest4, .ok [])
              else
                some (st, rest3, .ok [])
          else if response_cmd = CMD_DATA then
            let result := zk_data
            if result.length < size then
              match readExact (size - result.length) rest2 with
              | none => some (st, rest2, .error "Read remaining bytes")
              | some (more, rest3) =>
                let result := result ++ more
                let ack := try_read_ack st rest3
                some (ack.1, ack.2, .ok (result.take (min size result.length)))
            else
              let ack := try_read_ack st rest2
              some (ack.1, ack.2, .ok (result.take (min size result.length)))
          else if response_cmd = CMD_PREPARE_DATA then
            if zk_data.length < 4 then
              some (st, rest2, .error "PREPARE_DATA: no size in response")
            else
              let inner_size :=
                u32le (zk_data.getD 0 0) (zk_data.getD 1 0) (zk_data.getD 2 0) (zk_data.getD 3 0)
              match rcPrepLoop fuel st inner_size [] rest2 with
              | none => none
              | some (st2, rest3, .error e) => some (st2, rest3, .error e)
              | some (st2, rest3, .ok all_data) =>
                some (st2, rest3, .ok (all_data.take (min size all_data.length)))
          else
            some (st, rest2, .error "Unexpected chunk response")

/-- The bit-reversal loop of `ZKClient::make_commkey`: for `i` in `0..32`,
shift the accumulator left and bring in bit `i` of `key`. -/
def rev32 (key : Nat) : Nat :=
  (List.range 32).foldl
    (fun k i => if key &&& (1 <<< i) ≠ 0 then (k <<< 1) ||| 1 else k <<< 1) 0

/-- `ZKClient::make_commkey`, translated step for step: reverse the 32 key
bits, add the session id (`u32::wrapping_add` is reduction mod `2^32`),
XOR the little-endian bytes with ASCII `Z`, `K`, `S`, `O` (90, 75, 83,
79), swap the 16-bit halves, then XOR bytes 0, 1, 3 with 50 and overwrite
byte 2 with 50. -/
def make_commkey (password : Nat) (session_id : Nat) : List Nat :=
  let key := password
  let k := rev32 key
  let k := (k + session_id) % 4294967296
  let k_bytes := le32 k
  let xored :=
    [Nat.xor (k_bytes.getD 0 0) 90, Nat.xor (k_bytes.getD 1 0) 75,
     Nat.xor (k_bytes.getD 2 0) 83, Nat.xor (k_bytes.getD 3 0) 79]
  let h1 := u16le (xored.getD 0 0) (xored.getD 1 0)
  let h2 := u16le (xored.getD 2 0) (xored.getD 3 0)
  let result := le16 h2 ++ le16 h1
  let b := 50
  [Nat.xor (result.getD 0 0) b, Nat.xor (result.getD 1 0) b, b,
   Nat.xor (result.getD 3 0) b]

/-- ASCII byte list of a string literal (all characters used are ASCII). -/
def asciiStr (s : String) : List Nat := s.data.map Char.toNat

/-- ASCII decimal digit bytes of `n`, as produced by Rust `to_string` /
`format!` for unsigned integers. -/
def natDecBytes (n : Nat) : List Nat := (Nat.toDigits 10 n).map Char.toNat

/-- `trim_end_matches('\0')` on a byte string: drop trailing NUL bytes. -/
def trimEndNul (s : List Nat) : List Nat :=
  (s.reverse.dropWhile (fun b => b == 0)).reverse

/-- The ASCII whitespace bytes removed by Rust `str::trim` (the name
fields modelled here hold ASCII, where Unicode whitespace is exactly
these bytes). -/
def isWsByte (b : Nat) : Bool := b == 32 || (9 ≤ b && b ≤ 13)

/-- Rust `str::trim` on an ASCII byte string. -/
def trimAscii (s : List Nat) : List Nat :=
  ((s.dropWhile isWsByte).reverse.dropWhile isWsByte).reverse

/-- A parsed user (`struct User`): `user_id` and `name` are the bytes of
the source's `String` fields. -/
structure UserR where
  uid : Nat
  user_id : List Nat
  name : List Nat
deriving DecidableEq

/-- The 28-byte arm of `ZKClient::get_users` applied to one record:
`uid` is the `u16` at bytes [0..2], the name is the lossy string of bytes
[8..16] with trailing NULs and surrounding whitespace trimmed (the records
considered in the theorems hold ASCII names, where the byte-level model is
exact), the fallback name is `"NN-<user_id_num>"`, and `user_id` is the
decimal form of the `u32` at bytes [24..28]. -/
def parse28 (record : List Nat) : UserR :=
  let uid := u16le (record.getD 0 0) (record.getD 1 0)
  let name_bytes := (record.drop 8).take 8
  let user_id_num :=
    u32le (record.getD 24 0) (record.getD 25 0) (record.getD 26 0) (record.getD 27 0)
  let name := trimAscii (trimEndNul name_bytes)
  let name := if name = [] then asciiStr "NN-" ++ natDecBytes user_id_num else name
  { uid := uid, user_id := natDecBytes user_id_num, name := name }

/-- C5's claimed behaviour, stated from the spec's words: the name comes
from the wide 24-byte window bytes [2..26], the fallback name is
`"User-<uid>"`, and `user_id` is the textual form of `uid`. -/
def parse28Claim (record : List Nat) : UserR :=
  let uid := u16le (record.getD 0 0) (record.getD 1 0)
  let name_bytes := (record.drop 2).take 24
  let name := trimAscii (trimEndNul name_bytes)
  let name := if name = [] then asciiStr "User-" ++ natDecBytes uid else name
  { uid := uid, user_id := natDecBytes uid, name := name }

/-- C5 amended, stated from the corrected words with windows written as
index maps rather than slices: the name window is the 8 bytes at indices
`8+i`, the fallback is `"NN-"` followed by the decimal of the `u32` read
at indices 24..28, and `user_id` is that same decimal. -/
def parse28Amended (record : List Nat) : UserR :=
  let uid := u16le (record.getD 0 0) (record.getD 1 0)
  let idNum :=
    u32le (record.getD 24 0) (record.getD 25 0) (record.getD 26 0) (record.getD 27 0)
  let window := (List.range 8).map fun i => record.getD (8 + i) 0
  let nm := trimAscii (trimEndNul window)
  { uid := uid, user_id := natDecBytes idNum,
    name := if nm = [] then asciiStr "NN-" ++ natDecBytes idNum else nm }

/-- The six date-time components computed by `ZKClient::decode_time` and
passed to `Local.with_ymd_and_hms`. -/
structure DT where
  year : Nat
  month : Nat
  day : Nat
  hour : Nat
  minute : Nat
  second : Nat
deriving DecidableEq

/-- The successive modulo/divide arithmetic of `ZKClient::decode_time`.
The source then interprets the components in the local time zone, falling
back to the current time for impossible dates; that IO step is outside the
model, which keeps the components themselves. -/
def decode_time (t : Nat) : DT :=
  let second := t % 60
  let t := t / 60
  let minute := t % 60
  let t := t / 60
  let hour := t % 24
  let t := t / 24
  let day := t % 31 + 1
  let t := t / 31
  let month := t % 12 + 1
  let t := t / 12
  let year := t + 2000
  ⟨year, month, day, hour, minute, second⟩

/-- Two-digit zero-padded decimal, as produced by chrono's `%m`, `%d`,
`%H`, `%M`, `%S` for in-range values. -/
def pad2 (n : Nat) : String := if n < 10 then "0" ++ toString n else toString n

/-- chrono's `%Y-%m-%d` for years of at least four digits (always the case
here: `decode_time` yields years from 2000 up). -/
def fmtDate (d : DT) : String :=
  toString d.year ++ "-" ++ pad2 d.month ++ "-" ++ pad2 d.day

/-- chrono's `%H:%M:%S`. -/
def fmtTime (d : DT) : String :=
  pad2 d.hour ++ ":" ++ pad2 d.minute ++ ":" ++ pad2 d.second

/-- `ZKClient::status_to_event`. -/
def status_to_event (status : Nat) : String :=
  if status = 0 then "Check In"
  else if status = 1 then "Check Out"
  else if status = 2 then "Break Out"
  else if status = 3 then "Break In"
  else if status = 4 then "OT In"
  else if status = 5 then "OT Out"
  else "Unknown"

/-- An `AttendanceRecord`.  `user_name` holds string bytes; the source's
`timestamp` field is the RFC 3339 rendering of the decoded local datetime,
modelled by its components `timestampDT`. -/
structure AttRec where
  user_id : Nat
  user_name : List Nat
  timestampDT : DT
  status : Nat
  punch : Nat
  date : String
  time : String
  event : String
deriving DecidableEq

/-- `HashMap::insert`: replace the value at an existing key or add the
binding. -/
def insertKV (m : List (List Nat × List Nat)) (k v : List Nat) :
    List (List Nat × List Nat) :=
  if m.any (fun p => p.1 == k) then
    m.map (fun p => if p.1 == k then (k, v) else p)
  else
    m ++ [(k, v)]

/-- `HashMap::get`. -/
def lookupKV (m : List (List Nat × List Nat)) (k : List Nat) : Option (List Nat) :=
  (m.find? (fun p => p.1 == k)).map (·.2)

/-- The user lookup built by `get_attendance`: for each user insert both
`uid.to_string()` and `user_id` as keys for the name. -/
def build_lookup (users : List UserR) : List (List Nat × List Nat) :=
  users.foldl (fun m u => insertKV (insertKV m (natDecBytes u.uid) u.name) u.user_id u.name) []

/-- `format!("Unknown (ID: {})", id)` for a numeric id rendered from `n`. -/
def unknownName (n : Nat) : List Nat :=
  asciiStr "Unknown (ID: " ++ natDecBytes n ++ asciiStr ")"

/-- The 8-byte-record loop of `get_attendance`: `uid:u16, status:u8,
timestamp:4s, punch:u8`.  Fuel models the source `while`; the caller
passes enough for the loop to finish. -/
def parse8Loop : Nat → List (List Nat × List Nat) → List Nat → Nat → List AttRec →
    Option (List AttRec)
  | 0, _, _, _, _ => none
  | fuel + 1, lookup, dat, offset, acc =>
    if offset + 8 ≤ dat.length then
      let record := (dat.drop offset).take 8
      let uid := u16le (record.getD 0 0) (record.getD 1 0)
      let status := record.getD 2 0
      let timestamp :=
        u32le (record.getD 3 0) (record.getD 4 0) (record.getD 5 0) (record.getD 6 0)
      let punch := record.getD 7 0
      let user_name := (lookupKV lookup (natDecBytes uid)).getD (unknownName uid)
      let dt := decode_time timestamp
      parse8Loop fuel lookup dat (offset + 8)
        (acc ++ [{ user_id := uid, user_name := user_name, timestampDT := dt,
                   status := status, punch := punch, date := fmtDate dt,
                   time := fmtTime dt, event := status_to_event status }])
    else some acc

/-- The 16-byte-record loop of `get_attendance`: `user_id:u32,
timestamp:u32, status:u8, punch:u8, reserved:2, workcode:u32`. -/
def parse16Loop : Nat → List (List Nat × List Nat) → List Nat → Nat → List AttRec →
    Option (List AttRec)
  | 0, _, _, _, _ => none
  | fuel + 1, lookup, dat, offset, acc =>
    if offset + 16 ≤ dat.length then
      let record := (dat.drop offset).take 16
      let user_id :=
        u32le (record.getD 0 0) (record.getD 1 0) (record.getD 2 0) (record.getD 3 0)
      let timestamp :=
        u32le (record.getD 4 0) (record.getD 5 0) (record.getD 6 0) (record.getD 7 0)
      let status := record.getD 8 0
      let punch := record.getD 9 0
      let user_name := (lookupKV lookup (natDecBytes user_id)).getD (unknownName user_id)
      let dt := decode_time timestamp
      parse16Loop fuel lookup dat (offset + 16)
        (acc ++ [{ user_id := user_id, user_name := user_name, timestampDT := dt,
                   status := status, punch := punch, date := fmtDate dt,
                   time := fmtTime dt, event := status_to_event status }])
    else some acc

/-- Rust `str::parse::<u32>` on byte strings, with the `unwrap_or`
default: an optional leading `+` (byte 43) followed by at least one
decimal digit, rejecting anything else and values above `u32::MAX`
(since the accumulated value only grows, an intermediate overflow in the
source is equivalent to the final value reaching `2 ^ 32`). -/
def parseU32D (s : List Nat) (dflt : Nat) : Nat :=
  let ds := match s with
    | 43 :: rest => rest
    | _ => s
  let v := ds.foldl (fun n b => 10 * n + (b - 48)) 0
  if ds ≠ [] ∧ ds.all (fun b => 48 ≤ b && b ≤ 57) ∧ v < 4294967296 then v else dflt

/-- The `40 | _` arm loop of `get_attendance` with
`actual_record_size = ars`: the guard is `offset + ars ≤ len`, a record is
materialised only when `ars ≥ 40` (fields `uid:u16, user_id:24s` at bytes
[2..26], `status:u8` at 26, `timestamp:u32` at [27..31], `punch:u8` at
31), and `offset` advances by `ars`.  The fuel models the source `while`;
`none` means the source loop has not exited within `fuel` iterations. -/
def parse40Loop : Nat → Nat → List (List Nat × List Nat) → List Nat → Nat → List AttRec →
    Option (List AttRec)
  | 0, _, _, _, _, _ => none
  | fuel + 1, ars, lookup, dat, offset, acc =>
    if offset + ars ≤ dat.length then
      let record := (dat.drop offset).take ars
      let acc :=
        if ars ≥ 40 then
          let uid := u16le (record.getD 0 0) (record.getD 1 0)
          let user_id_bytes := (record.drop 2).take 24
          let status := record.getD 26 0
          let timestamp :=
            u32le (record.getD 27 0) (record.getD 28 0) (record.getD 29 0) (record.getD 30 0)
          let punch := record.getD 31 0
          let user_id_str := trimEndNul user_id_bytes
          let user_name :=
            if user_id_str ≠ [] then
              ((lookupKV lookup user_id_str).orElse
                (fun _ => lookupKV lookup (natDecBytes uid))).getD
                (asciiStr "Unknown (ID: " ++ user_id_str ++ asciiStr ")")
            else
              (lookupKV lookup (natDecBytes uid)).getD
                (asciiStr "Unknown (UID: " ++ natDecBytes uid ++ asciiStr ")")
          let dt := decode_time timestamp
          let final_user_id := parseU32D user_id_str uid
          acc ++ [{ user_id := final_user_id, user_name := user_name,
                    timestampDT := dt, status := status, punch := punch,
                    date := fmtDate dt, time := fmtTime dt,
                    event := status_to_event status }]
        else acc
      parse40Loop fuel ars lookup dat (offset + ars) acc
    else some acc

/-- The record-parsing stage of `ZKClient::get_attendance`: header check,
`total_size` extraction, `record_size` derivation (`total_size /
expected_records`, or the divisibility fallback), then the arm selected by
`record_size` (`8`, `16`, or the `40 | _` catch-all with
`actual_record_size = min record_size 40`).  Result `none` means the
source's parsing loop does not terminate within `data.length + 1`
iterations — which, as every productive iteration consumes a positive
record size, can happen only when the loop never exits. -/
def parse_attendance (users : List UserR) (expected_records : Nat)
    (data : List Nat) : Option (List AttRec) :=
  if data.length < 4 then some []
  else
    let total_size := u32le (data.getD 0 0) (data.getD 1 0) (data.getD 2 0) (data.getD 3 0)
    let record_size :=
      if expected_records > 0 ∧ total_size > 0 then total_size / expected_records
      else if (data.length - 4) % 40 = 0 then 40
      else if (data.length - 4) % 16 = 0 then 16
      else if (data.length - 4) % 8 = 0 then 8
      else 16
    let attendance_data := data.drop 4
    let lookup := build_lookup users
    let fuel := attendance_data.length + 1
    if record_size = 8 then parse8Loop fuel lookup attendance_data 0 []
    else if record_size = 16 then parse16Loop fuel lookup attendance_data 0 []
    else
      let ars := if record_size ≥ 40 then 40 else record_size
      parse40Loop fuel ars lookup attendance_data 0 []

/-- The client calls made by `connect_and_fetch_attendance` after a
successful `connect`, in order. -/
inductive FlowEvent where
  | disableDevice
  | readSizes
  | getUsers
  | getAttendance
  | enableDevice
  | exitCmd
deriving DecidableEq

/-- The per-call outcomes a device produces during one fetch flow. -/
structure FlowOutcomes where
  disableRes : Except String Unit
  sizesRes : Except String (Nat × Nat × Nat)
  usersRes : Except String (List UserR)
  attRes : Except String (List AttRec)

/-- `ZKClient::disconnect`: attempt `ENABLEDEVICE` then `EXIT`, ignoring
both results, and return `Ok`. -/
def disconnect_events : List FlowEvent := [FlowEvent.enableDevice, FlowEvent.exitCmd]

/-- Control flow of `connect_and_fetch_attendance` after a successful
connect: `disable_device` errors only warn, `read_sizes` errors fall back
to `(0,0,0)`, `get_users` errors fall back to the empty list, but a
`get_attendance` error returns through `?` immediately; `disconnect` runs
only after a successful `get_attendance`.  Returns the ordered trace of
client calls together with the function's result. -/
def connect_and_fetch_flow (o : FlowOutcomes) :
    List FlowEvent × Except String (List AttRec) :=
  let t := [FlowEvent.disableDevice, FlowEvent.readSizes, FlowEvent.getUsers,
            FlowEvent.getAttendance]
  match o.attRes with
  | .error e => (t, .error e)
  | .ok records => (t ++ disconnect_events, .ok records)

/-! Theorems settling the claims. -/

/-- C1 counterexample: on the 8-byte inner packet
`E8 03 00 00 00 00 FE FF` the source's `calc_checksum` does not return
`0x17FC`. -/
theorem C1_counterexample :
    calc_checksum [0xE8, 0x03, 0x00, 0x00, 0x00, 0x00, 0xFE, 0xFF] ≠ 0x17FC := by
  decide

/-- C1 amended: `calc_checksum` applied to the 8-byte inner packet
`E8 03 00 00 00 00 FE FF` (cmd=1000, checksum field zeroed, session_id=0,
reply_id=65534, empty payload) returns the 16-bit value `0xFC17`
(64535): the word sum is 1000 + 65534 reduced once by 65535 to 999, the
signed NOT gives -1000, and adding 65535 once gives 64535. -/
theorem C1_checksum :
    calc_checksum [0xE8, 0x03, 0x00, 0x00, 0x00, 0x00, 0xFE, 0xFF] = 0xFC17 := by
  decide

/-- C2: for a bulk read of exactly `2 * MAX_CHUNK + 100` bytes
(`MAX_CHUNK = 0xFFC0`), `read_chunks` issues exactly the three
`CMD_DATA_RDY` requests `(0, MAX_CHUNK)`, `(MAX_CHUNK, MAX_CHUNK)`,
`(2 * MAX_CHUNK, 100)` in that order followed by exactly one
`CMD_FREE_DATA`; and in general the size splits into `size / MAX_CHUNK`
full chunks plus a `size % MAX_CHUNK` remainder chunk, with no tail chunk
when the remainder is 0. -/
theorem C2_read_chunks :
    read_chunks_cmds (2 * 0xFFC0 + 100) 0xFFC0 =
      [ChunkCmd.dataRdy 0 0xFFC0, ChunkCmd.dataRdy 0xFFC0 0xFFC0,
       ChunkCmd.dataRdy (2 * 0xFFC0) 100, ChunkCmd.freeData] ∧
    ∀ size : Nat,
      read_chunks_cmds size 0xFFC0 =
        ((List.range (size / 0xFFC0)).map fun i => ChunkCmd.dataRdy (i * 0xFFC0) 0xFFC0)
          ++ (if size % 0xFFC0 = 0 then []
              else [ChunkCmd.dataRdy (size / 0xFFC0 * 0xFFC0) (size % 0xFFC0)])
          ++ [ChunkCmd.freeData] := by
  refine ⟨by decide, fun size => ?_⟩
  have h0 : size - size % 65472 = 65472 * (size / 65472) := by
    have := Nat.div_add_mod size 65472
    omega
  unfold read_chunks_cmds
  dsimp only
  rw [h0, Nat.mul_div_cancel_left _ (by norm_num)]
  rcases Nat.eq_zero_or_pos (size % 65472) with h | h
  · simp [h]
  · rw [if_pos h, if_neg (by omega), Nat.mul_comm]

/-- C3 counterexample: with the session's `reply_id` at 65534, the packet
built by `create_header` carries outgoing reply-id 0 (bytes 6 and 7), not
`USHRT_MAX = 65535` as claimed. -/
theorem C3_counterexample :
    u16le ((create_header ⟨0, 65534⟩ 1000 []).getD 6 0)
        ((create_header ⟨0, 65534⟩ 1000 []).getD 7 0) = 0 ∧
    u16le ((create_header ⟨0, 65534⟩ 1000 []).getD 6 0)
        ((create_header ⟨0, 65534⟩ 1000 []).getD 7 0) ≠ 65535 := by
  constructor
  · decide
  · decide

/-- C4 (code bug): the record-parsing stage of `get_attendance` is not
total.  When the derived `record_size` is 0 — e.g. buffer `[1,0,0,0]`
(`total_size = 1`) with `expected_records = 2` — the `40 | _` arm's loop
has `actual_record_size = 0`, its guard `offset + 0 ≤ len` stays true and
`offset += 0` makes no progress, so the loop never exits: for every fuel
the loop is still running (`none`), and `parse_attendance` on that input
never produces a record sequence. -/
theorem C4_nonterminating :
    (∀ fuel acc, parse40Loop fuel 0 [] [] 0 acc = none) ∧
    parse_attendance [] 2 [1, 0, 0, 0] = none := by
  constructor
  · intro fuel
    induction fuel with
    | zero => intro acc; rfl
    | succ n ih =>
        intro acc
        rw [parse40Loop]
        simpa using ih acc
  · decide

/-- A 28-byte user record with `uid = 5`, name bytes `"AB"` (padded with
NULs) at [8..16], and `user_id` field 7 at [24..28]. -/
def c5Record : List Nat :=
  [5, 0, 0, 0, 0, 0, 0, 0,
   65, 66, 0, 0, 0, 0, 0, 0,
   0, 0, 0, 0, 0, 0, 0, 0,
   7, 0, 0, 0]

/-- C5 counterexample: on `c5Record` the source's 28-byte user parse
disagrees with the claimed one — the source sets `user_id` to the decimal
of the `u32` at bytes [24..28] (here 7), not the textual `uid` (here 5),
and reads the name from bytes [8..16], not the wide window [2..26]. -/
theorem C5_counterexample :
    parse28 c5Record ≠ parse28Claim c5Record ∧
    (parse28 c5Record).user_id = natDecBytes 7 ∧
    (parse28Claim c5Record).user_id = natDecBytes 5 ∧
    (parse28 c5Record).name = [65, 66] := by
  decide

/-- C8's failing outcome: everything succeeds up to `get_attendance`,
which fails. -/
def c8Out : FlowOutcomes :=
  { disableRes := .ok (), sizesRes := .ok (0, 0, 0), usersRes := .ok [],
    attRes := .error "attendance failed" }

/-- C8 counterexample: when `get_attendance` fails, the fetch flow
surfaces the error without ever attempting `ENABLEDEVICE` or `EXIT` —
the `?` on `get_attendance` returns before `disconnect` is reached. -/
theorem C8_counterexample :
    (connect_and_fetch_flow c8Out).2 = .error "attendance failed" ∧
    FlowEvent.enableDevice ∉ (connect_and_fetch_flow c8Out).1 ∧
    FlowEvent.exitCmd ∉ (connect_and_fetch_flow c8Out).1 := by
  decide

/-- C8 amended: when `get_attendance` fails, the flow surfaces the error
with no `ENABLEDEVICE`/`EXIT` attempt; only on the success path does it
run `disconnect`, which attempts `ENABLEDEVICE` then `EXIT` ignoring
their results. -/
theorem C8_flow (o : FlowOutcomes) :
    (∀ e, o.attRes = .error e →
        connect_and_fetch_flow o =
          ([FlowEvent.disableDevice, FlowEvent.readSizes, FlowEvent.getUsers,
            FlowEvent.getAttendance], .error e)) ∧
    (∀ rs, o.attRes = .ok rs →
        connect_and_fetch_flow o =
          ([FlowEvent.disableDevice, FlowEvent.readSizes, FlowEvent.getUsers,
            FlowEvent.getAttendance] ++ disconnect_events, .ok rs)) := by
  constructor <;> intro x h <;> simp [connect_and_fetch_flow, h]

/-- C8 witness: the amended flow theorem applied at the concrete failing
outcome. -/
theorem C8_flow_witness :
    connect_and_fetch_flow c8Out =
      ([FlowEvent.disableDevice, FlowEvent.readSizes, FlowEvent.getUsers,
        FlowEvent.getAttendance], .error "attendance failed") :=
  (C8_flow c8Out).1 "attendance failed" rfl

/-- C3 amended: for any current reply id `r < USHRT_MAX`, the packet
built by `create_header` carries outgoing reply-id `(r + 1) % USHRT_MAX`
in bytes 6 and 7.  In particular at `r = 65534` the outgoing reply-id is
0 (and, once the device echoes it back, the following send carries 1);
the value 65535 itself is never emitted. -/
theorem C3_reply_id (sid cmd : Nat) (cs : List Nat) (r : Nat) (h : r < 65535) :
    u16le ((create_header ⟨sid, r⟩ cmd cs).getD 6 0)
        ((create_header ⟨sid, r⟩ cmd cs).getD 7 0) = (r + 1) % 65535 := by
  have h6 : (create_header ⟨sid, r⟩ cmd cs).getD 6 0
      = (if (r + 1) % 65536 ≥ USHRT_MAX then (r + 1) % 65536 - USHRT_MAX
         else (r + 1) % 65536) % 256 := rfl
  have h7 : (create_header ⟨sid, r⟩ cmd cs).getD 7 0
      = (if (r + 1) % 65536 ≥ USHRT_MAX then (r + 1) % 65536 - USHRT_MAX
         else (r + 1) % 65536) / 256 % 256 := rfl
  rw [h6, h7]
  unfold u16le USHRT_MAX
  split_ifs with hc <;> omega

/-- C3 witness: the amended reply-id theorem applied at the wrap point
`r = 65534`, where the emitted reply-id is `(65534 + 1) % 65535 = 0`. -/
theorem C3_reply_id_witness :
    u16le ((create_header ⟨0, 65534⟩ 1000 []).getD 6 0)
        ((create_header ⟨0, 65534⟩ 1000 []).getD 7 0) = (65534 + 1) % 65535 :=
  C3_reply_id 0 1000 [] 65534 (by decide)

/-- A slice `l[n .. n+m]` viewed as an index map, valid when the slice is
in bounds. -/
theorem slice_eq_map_range (l : List Nat) (n m : Nat) (h : n + m ≤ l.length) :
    (l.drop n).take m = (List.range m).map fun i => l.getD (n + i) 0 := by
  apply List.ext_getElem
  · simp
    omega
  · intro i h1 h2
    have hi : i < m := by
      simp at h1
      omega
    have hni : n + i < l.length := by omega
    simp only [List.getElem_take, List.getElem_drop, List.getElem_map, List.getElem_range]
    rw [List.getD_eq_getElem l 0 hni]

/-- C5 amended: on every 28-byte record the source's user parse agrees
with the corrected description — name from the 8-byte window at indices
8..16 with `"NN-<id>"` fallback, and `user_id` the decimal form of the
`u32` at indices 24..28. -/
theorem C5_users_parse (record : List Nat) (h : record.length = 28) :
    parse28 record = parse28Amended record := by
  unfold parse28 parse28Amended
  dsimp only
  rw [slice_eq_map_range record 8 8 (by omega)]

/-- C5 witness: the amended parse theorem applied at the concrete
28-byte record `c5Record`. -/
theorem C5_users_parse_witness : parse28 c5Record = parse28Amended c5Record :=
  C5_users_parse c5Record (by decide)

/-- A captured stream whose first frame carries magic words
`0x0000 0x0000` (instead of `0x5050 0x7D82`) with length 9, a
`CMD_DATA` inner packet with one payload byte, followed by a well-formed
`CMD_ACK_OK` frame answering the final `CMD_FREE_DATA`. -/
def c7BadStream : List Nat :=
  [0, 0, 0, 0, 9, 0, 0, 0,
   221, 5, 0, 0, 0, 0, 0, 0, 65,
   80, 80, 130, 125, 8, 0, 0, 0,
   208, 7, 0, 0, 0, 0, 0, 0]

/-- C7 counterexample: not every framed receive validates the outer
magics — the data-stream reader accepts a frame whose first magic word is
0, delivers its payload, and completes successfully. -/
theorem C7_counterexample :
    u16le (c7BadStream.getD 0 0) (c7BadStream.getD 1 0) ≠ MACHINE_PREPARE_DATA_1 ∧
    read_prepare_data_stream 4 ⟨0, 0⟩ 1 c7BadStream = some (⟨0, 0⟩, .ok ([65], 1)) := by
  constructor
  · decide
  · rfl

/-- C7 amended: the command round-trip receivers `send_command` and
`recv_packet` validate both outer-frame magic words after reading the
8-byte header and reject the frame with an error (leaving the session
unchanged) when either mismatches, before reading the length-delimited
body; the chunk reader `read_chunk_pyzk` and the data-stream reader
`read_prepare_data_stream`, by contrast, use only the length field of the
header and each completes successfully on a stream whose first frame
carries wrong magics. -/
theorem C7_magic_validation :
    (∀ (st : Session) (c : Nat) (cs hdr rest : List Nat),
        hdr.length = 8 →
        (u16le (hdr.getD 0 0) (hdr.getD 1 0) ≠ MACHINE_PREPARE_DATA_1 ∨
         u16le (hdr.getD 2 0) (hdr.getD 3 0) ≠ MACHINE_PREPARE_DATA_2) →
        (send_command true st c cs (hdr ++ rest)).result = .error "Invalid TCP header" ∧
        (send_command true st c cs (hdr ++ rest)).session = st) ∧
    (∀ (st : Session) (hdr rest : List Nat),
        hdr.length = 8 →
        (u16le (hdr.getD 0 0) (hdr.getD 1 0) ≠ MACHINE_PREPARE_DATA_1 ∨
         u16le (hdr.getD 2 0) (hdr.getD 3 0) ≠ MACHINE_PREPARE_DATA_2) →
        recv_packet st (hdr ++ rest) = (st, rest, .error "Invalid TCP header")) ∧
    read_prepare_data_stream 4 ⟨0, 0⟩ 1 c7BadStream = some (⟨0, 0⟩, .ok ([65], 1)) ∧
    read_chunk_pyzk 4 true ⟨0, 0⟩ 0 1 c7BadStream = some (⟨0, 0⟩, [], .ok [65]) := by
  have hre : ∀ (hdr rest : List Nat), hdr.length = 8 →
      readExact 8 (hdr ++ rest) = some (hdr, rest) := by
    intro hdr rest hlen
    unfold readExact
    rw [if_pos (by simp [hlen])]
    rw [List.take_left' hlen, List.drop_left' hlen]
  refine ⟨?_, ?_, rfl, rfl⟩
  · intro st c cs hdr rest hlen hmag
    unfold send_command
    rw [hre hdr rest hlen]
    dsimp only
    rw [if_neg (by simp), if_pos hmag]
    exact ⟨rfl, rfl⟩
  · intro st hdr rest hlen hmag
    unfold recv_packet
    rw [hre hdr rest hlen]
    dsimp only
    rw [if_pos hmag]

/-- C7 witness: the amended theorem's `send_command` half applied at a
concrete stream whose header bytes are all 9. -/
theorem C7_magic_validation_witness :
    (send_command true ⟨3, 4⟩ 1000 []
        ([9, 9, 9, 9, 8, 0, 0, 0] ++ [1, 2, 3, 4, 5, 6, 7, 8])).result
      = .error "Invalid TCP header" :=
  (C7_magic_validation.1 ⟨3, 4⟩ 1000 [] [9, 9, 9, 9, 8, 0, 0, 0]
    [1, 2, 3, 4, 5, 6, 7, 8] (by decide) (by decide)).1

/-- C10: `send_command` is atomic with respect to session state — if it
returns an error for any reason (write failure, bad outer magic, short
read of header or body, or an inner packet shorter than 8 bytes), the
session's `session_id` and `reply_id` are unchanged; they are mutated
only after a complete valid response, and building the outgoing packet
alone (a read-only function of the session) never advances the stored
reply id. -/
theorem C10_atomic (writeOk : Bool) (st : Session) (c : Nat) (cs stream : List Nat)
    (e : String) (h : (send_command writeOk st c cs stream).result = .error e) :
    (send_command writeOk st c cs stream).session = st := by
  unfold send_command at h ⊢
  by_cases hw : writeOk = false
  · rw [if_pos hw]
  · rw [if_neg hw] at h ⊢
    cases hre : readExact 8 stream with
    | none => rfl
    | some pr =>
      obtain ⟨hdr, rest⟩ := pr
      rw [hre] at h
      dsimp only at h ⊢
      by_cases hm : u16le (hdr.getD 0 0) (hdr.getD 1 0) ≠ MACHINE_PREPARE_DATA_1 ∨
          u16le (hdr.getD 2 0) (hdr.getD 3 0) ≠ MACHINE_PREPARE_DATA_2
      · rw [if_pos hm]
      · rw [if_neg hm] at h ⊢
        cases hre2 : readExact (u32le (hdr.getD 4 0) (hdr.getD 5 0) (hdr.getD 6 0)
            (hdr.getD 7 0)) rest with
        | none => rfl
        | some pr2 =>
          obtain ⟨data, rest2⟩ := pr2
          rw [hre2] at h
          dsimp only at h ⊢
          by_cases hlen : data.length < 8
          · rw [if_pos hlen]
          · rw [if_neg hlen] at h
            simp at h

/-- C10 witness: the atomicity theorem applied at a session `⟨7, 9⟩` and
the empty input stream, where reading the outer header fails. -/
theorem C10_atomic_witness :
    (send_command true ⟨7, 9⟩ 1000 [] []).session = ⟨7, 9⟩ :=
  C10_atomic true ⟨7, 9⟩ 1000 [] [] "Failed to read TCP header" (by rfl)

/-- C6's claimed algorithm, stated from the spec's words: `k` is the
32-bit reversal of the password (bit `i` of the password contributes
`2 ^ (31 - i)`), the session id is added modulo `2 ^ 32`, the four
little-endian bytes are XORed with ASCII `Z K S O`, the 16-bit halves are
swapped, and finally bytes 0, 1 and 3 are XORed with 50 while byte 2 is
set to 50. -/
def commkeySpec (password session_id : Nat) : List Nat :=
  let k := Finset.sum (Finset.range 32) (fun i => if password.testBit i then 2 ^ (31 - i) else 0)
  let k := (k + session_id) % 2 ^ 32
  let b1 := Nat.xor (k / 256 % 256) 75
  let b2 := Nat.xor (k / 65536 % 256) 83
  let b3 := Nat.xor (k / 16777216 % 256) 79
  [Nat.xor b2 50, Nat.xor b3 50, 50, Nat.xor b1 50]

/-- Setting the low bit of an even shifted value is addition of 1. -/
theorem lor_mul_two_one (x : Nat) : (x * 2) ||| 1 = x * 2 + 1 := by
  apply Nat.eq_of_testBit_eq
  intro i
  cases i with
  | zero =>
      simp [Nat.testBit_lor, Nat.testBit_zero]
      omega
  | succ j =>
      rw [Nat.testBit_lor, Nat.testBit_succ, Nat.testBit_succ, Nat.testBit_succ]
      have h1 : x * 2 / 2 = x := by omega
      have h2 : (x * 2 + 1) / 2 = x := by omega
      have h3 : (1 : Nat) / 2 = 0 := by omega
      rw [h1, h2, h3]
      simp

/-- Characterisation of the source's bit-collection loop: folding the
first `n` bits of `key` onto `a` yields `a` shifted up by `n` plus the
`n`-bit reversal of `key`. -/
theorem rev_foldl (key : Nat) : ∀ (n : Nat) (a : Nat),
    (List.range n).foldl
      (fun k i => if key &&& (1 <<< i) ≠ 0 then (k <<< 1) ||| 1 else k <<< 1) a
    = a * 2 ^ n
      + Finset.sum (Finset.range n) (fun i => if key.testBit i then 2 ^ (n - 1 - i) else 0) := by
  intro n
  induction n with
  | zero => intro a; simp
  | succ m ih =>
      intro a
      rw [List.range_succ, List.foldl_append, ih]
      simp only [List.foldl_cons, List.foldl_nil]
      have hdouble :
          Finset.sum (Finset.range m) (fun i => if key.testBit i then 2 ^ (m - i) else 0)
            = 2 * Finset.sum (Finset.range m)
                (fun i => if key.testBit i then 2 ^ (m - 1 - i) else 0) := by
        rw [Finset.mul_sum]
        apply Finset.sum_congr rfl
        intro i hi
        have him : i < m := Finset.mem_range.mp hi
        by_cases h : key.testBit i = true
        · rw [if_pos h, if_pos h, show m - i = (m - 1 - i) + 1 by omega, pow_succ]
          ring
        · rw [if_neg h, if_neg h]
          omega
      rw [Finset.sum_range_succ]
      simp only [Nat.add_sub_cancel]
      rw [hdouble]
      by_cases hb : key.testBit m = true
      · have hb' : key &&& (1 <<< m) ≠ 0 := by
          rw [Nat.shiftLeft_eq, one_mul, Nat.and_two_pow, hb]
          simp
        rw [if_pos hb', if_pos hb, Nat.shiftLeft_eq, pow_one, lor_mul_two_one,
          Nat.sub_self, pow_zero, pow_succ]
        ring
      · have hb' : ¬ key &&& (1 <<< m) ≠ 0 := by
          rw [Nat.shiftLeft_eq, one_mul, Nat.and_two_pow]
          simp only [Bool.not_eq_true] at hb
          rw [hb]
          simp
        rw [if_neg hb', if_neg hb, Nat.shiftLeft_eq, pow_one, pow_succ]
        ring

/-- The source's bit-collection loop computes the 32-bit reversal. -/
theorem rev32_eq (key : Nat) :
    rev32 key
      = Finset.sum (Finset.range 32) (fun i => if key.testBit i then 2 ^ (31 - i) else 0) := by
  unfold rev32
  rw [rev_foldl key 32 0]
  have h31 : (32 : Nat) - 1 = 31 := rfl
  simp only [h31, Nat.zero_mul, Nat.zero_add]

/-- C6: for every password and session id, `make_commkey` returns exactly
the 4 bytes of the claimed algorithm — reverse the 32 password bits, add
the session id mod `2 ^ 32`, XOR the little-endian bytes with `"ZKSO"`,
swap the 16-bit halves, XOR bytes 0, 1, 3 with 50 and set byte 2 to 50. -/
theorem C6_commkey (password session_id : Nat) :
    make_commkey password session_id = commkeySpec password session_id := by
  have hK : (2 : Nat) ^ 32 = 4294967296 := by norm_num
  have hL : make_commkey password session_id =
      (let K := (rev32 password + session_id) % 4294967296
       [Nat.xor ((Nat.xor (K / 65536 % 256) 83 + 256 * Nat.xor (K / 16777216 % 256) 79) % 256) 50,
        Nat.xor ((Nat.xor (K / 65536 % 256) 83 + 256 * Nat.xor (K / 16777216 % 256) 79) / 256 % 256) 50,
        50,
        Nat.xor ((Nat.xor (K % 256) 90 + 256 * Nat.xor (K / 256 % 256) 75) / 256 % 256) 50]) := rfl
  rw [hL]
  unfold commkeySpec
  dsimp only
  rw [rev32_eq, hK]
  set K := ((Finset.sum (Finset.range 32) fun i => if password.testBit i then 2 ^ (31 - i) else 0)
      + session_id) % 4294967296 with hKdef
  have hlt : ∀ a b : Nat, a < 256 → b < 256 → Nat.xor a b < 256 := by
    intro a b ha hb
    have h256 : (256 : Nat) = 2 ^ 8 := by norm_num
    rw [h256] at ha hb ⊢
    exact Nat.xor_lt_two_pow ha hb
  set x0 := Nat.xor (K % 256) 90 with hx0def
  set x1 := Nat.xor (K / 256 % 256) 75 with hx1def
  set x2 := Nat.xor (K / 65536 % 256) 83 with hx2def
  set x3 := Nat.xor (K / 16777216 % 256) 79 with hx3def
  have hx0 : x0 < 256 := hlt _ _ (Nat.mod_lt _ (by norm_num)) (by norm_num)
  have hx1 : x1 < 256 := hlt _ _ (Nat.mod_lt _ (by norm_num)) (by norm_num)
  have hx2 : x2 < 256 := hlt _ _ (Nat.mod_lt _ (by norm_num)) (by norm_num)
  have hx3 : x3 < 256 := hlt _ _ (Nat.mod_lt _ (by norm_num)) (by norm_num)
  have hA : (x2 + 256 * x3) % 256 = x2 := by omega
  have hB : (x2 + 256 * x3) / 256 % 256 = x3 := by omega
  have hC : (x0 + 256 * x1) / 256 % 256 = x1 := by omega
  rw [hA, hB, hC]

/-- C9's raw attendance buffer: `total_size = 16` header plus the
16-byte record with `user_id = 101` and all other fields zero. -/
def c9Data : List Nat :=
  [16, 0, 0, 0] ++ [101, 0, 0, 0, 0, 0, 0, 0, 0, 0, 0, 0, 0, 0, 0, 0]

/-- C9: `decode_time 0` is 2000-01-01 00:00:00, and parsing the 16-byte
attendance record with `user_id = 101` and all other fields zero (with
`expected_records = 1`) yields one record with `user_id = 101`, status 0
rendered as "Check In", date "2000-01-01" and time "00:00:00", whose
decoded timestamp components are 2000-01-01T00:00:00 (interpreted by the
source in the local time zone). -/
theorem C9_record :
    decode_time 0 = ⟨2000, 1, 1, 0, 0, 0⟩ ∧
    parse_attendance [] 1 c9Data =
      some [{ user_id := 101, user_name := unknownName 101,
              timestampDT := ⟨2000, 1, 1, 0, 0, 0⟩, status := 0, punch := 0,
              date := "2000-01-01", time := "00:00:00", event := "Check In" }] := by
  constructor
  · rfl
  · rfl

end ZK
